import Mathlib

/-!
Verification development for the contact-book assistant `dz1.py`.

The Python source is shallowly embedded: pure functions become Lean
functions, exceptions become `Except PyErr`, and mutation of a `Record`
or of the `AddressBook` dictionary becomes explicit state passing.
Strings are processed over `List Char` (`String.data`); the embedding
models the ASCII behaviour of Python's string predicates (`str.isdigit`,
`str.lower`, `\d` in `strptime` patterns): the non-ASCII Unicode digit
classes are out of scope.
-/

/-- The Python exception kinds the program can raise, with the message
where the code supplies one.  The spec's `ValidationError` corresponds to
`ValueError` raised by the validators, its `NotFoundError` to the
`ValueError "Phone number not found"` raised by `Record.edit_phone`. -/
inductive PyErr where
  | valueError (msg : String)
  | typeError (msg : String)
  | indexError
  | keyError
  deriving DecidableEq, Repr

deriving instance DecidableEq for Except

/-- `Phone.validate_phone` (dz1.py line 22-24):
`len(phone) == 10 and phone.isdigit()`. -/
def validate_phone (phone : String) : Bool :=
  phone.length == 10 && phone.data.all Char.isDigit

/-- A `Phone` field object; `value` is its stored string. -/
structure Phone where
  value : String
  deriving DecidableEq, Repr

/-- `Phone.__init__` (dz1.py line 17-20): raises
`ValueError("Invalid phone number")` unless `validate_phone` holds. -/
def Phone.make (value : String) : Except PyErr Phone :=
  if validate_phone value then .ok ⟨value⟩
  else .error (.valueError "Invalid phone number")

/-! ### The `%d.%m.%Y` strptime model

`datetime.strptime(s, "%d.%m.%Y")` (used by `Birthday.__init__` and by
`get_upcoming_birthdays`) compiles the format to the anchored regex
`(3[01]|[12]\d|0[1-9]|[1-9])\.(1[0-2]|0[1-9]|[1-9])\.(\d\d\d\d)` which
must consume the whole string, then builds a `datetime`, which further
requires the day to exist in the given month and the year to be at
least 1.  We model the tokenisation by splitting the character list on
`'.'` and checking each dot-free group against the alternation it must
match in full. -/

/-- Numeric value of a list of decimal digit characters, as Python's
`int` reads it (most significant first). -/
def digitsToNat (l : List Char) : Nat :=
  l.foldl (fun a c => a * 10 + (c.toNat - 48)) 0

/-- Splits a character list at the dots: `fst` is the group before the
first dot, `snd` the list of later groups. -/
def splitDots : List Char → List Char × List (List Char)
  | [] => ([], [])
  | c :: rest =>
    let s := splitDots rest
    if c = '.' then ([], s.1 :: s.2) else (c :: s.1, s.2)

/-- All the dot-separated groups of a character list, in order. -/
def dotGroups (l : List Char) : List (List Char) :=
  (splitDots l).1 :: (splitDots l).2

/-- The day group of `%d`: regex `3[01]|[12]\d|0[1-9]|[1-9]`, i.e. one
or two digits with value 1..31. -/
def dayTok (l : List Char) : Bool :=
  l.all Char.isDigit && (l.length == 1 || l.length == 2)
    && decide (1 ≤ digitsToNat l) && decide (digitsToNat l ≤ 31)

/-- The month group of `%m`: regex `1[0-2]|0[1-9]|[1-9]`, i.e. one or
two digits with value 1..12. -/
def monthTok (l : List Char) : Bool :=
  l.all Char.isDigit && (l.length == 1 || l.length == 2)
    && decide (1 ≤ digitsToNat l) && decide (digitsToNat l ≤ 12)

/-- The year group of `%Y`: regex `\d\d\d\d`, exactly four digits. -/
def yearTok (l : List Char) : Bool :=
  l.all Char.isDigit && (l.length == 4)

/-- Gregorian leap-year rule, as `datetime` uses it. -/
def isLeap (y : Nat) : Bool :=
  y % 4 == 0 && (y % 100 != 0 || y % 400 == 0)

/-- Length of month `m` (1..12) of year `y`; 0 for an out-of-range
month index. -/
def daysInMonth (y m : Nat) : Nat :=
  match m with
  | 1 => 31
  | 2 => if isLeap y then 29 else 28
  | 3 => 31
  | 4 => 30
  | 5 => 31
  | 6 => 30
  | 7 => 31
  | 8 => 31
  | 9 => 30
  | 10 => 31
  | 11 => 30
  | 12 => 31
  | _ => 0

/-- `datetime.strptime(s, "%d.%m.%Y")` followed by extraction of the
day, month and year: `.ok (d, m, y)` on success, otherwise the
`ValueError` that `strptime`/`datetime` raises. -/
def strptime_dmY (s : String) : Except PyErr (Nat × Nat × Nat) :=
  match dotGroups s.data with
  | [a, b, c] =>
    if dayTok a && monthTok b && yearTok c then
      let d := digitsToNat a
      let m := digitsToNat b
      let y := digitsToNat c
      if 1 ≤ y ∧ d ≤ daysInMonth y m then .ok (d, m, y)
      else .error (.valueError "day is out of range for month")
    else .error (.valueError "time data does not match format")
  | _ => .error (.valueError "time data does not match format")

/-- `Birthday.__init__` (dz1.py line 26-32): parses with
`strptime(value, "%d.%m.%Y")`, normalising any failure to
`ValueError("Invalid date format")`, and stores the original string. -/
def Birthday.make (value : String) : Except PyErr String :=
  match strptime_dmY value with
  | .ok _ => .ok value
  | .error _ => .error (.valueError "Invalid date format")

/-! ### Record (dz1.py lines 34-76)

A `Record` owns its name, an ordered list of `Phone`s and an optional
birthday (the `Birthday` object stores the validated original string,
so the field is modelled as the string).  Python mutates records in
place; the embedding returns the updated record. -/

structure Record where
  name : String
  phones : List Phone
  birthday : Option String
  deriving DecidableEq, Repr

/-- `Record.__init__ (name, phone, birthday=None)`: builds the first
`Phone` (which validates), then the optional `Birthday`. -/
def Record.make (name phone : String) (birthday : Option String) :
    Except PyErr Record :=
  match Phone.make phone with
  | .error e => .error e
  | .ok p =>
    match birthday with
    | none => .ok ⟨name, [p], none⟩
    | some b =>
      match Birthday.make b with
      | .error e => .error e
      | .ok bv => .ok ⟨name, [p], some bv⟩

/-- `Record.add_phone` (lines 40-46): appends a fresh `Phone` when
`validate_phone` holds, else raises `ValueError("Invalid phone number")`.
The validation precedes the append, so a failing call leaves the
phone list untouched. -/
def Record.add_phone (r : Record) (phone : String) :
    Except PyErr (Record × Phone) :=
  if validate_phone phone then
    let np : Phone := ⟨phone⟩
    .ok ({ r with phones := r.phones ++ [np] }, np)
  else .error (.valueError "Invalid phone number")

/-- `Record.find_phone` (lines 48-52): first stored phone with the
given value. -/
def Record.find_phone (r : Record) (phone : String) : Option Phone :=
  r.phones.find? (fun p => p.value == phone)

/-- `Record.remove_phone` (lines 54-58): removes the first matching
phone, returning it; no-op returning `none` when absent. -/
def Record.remove_phone (r : Record) (phone : String) :
    Record × Option Phone :=
  match r.find_phone phone with
  | none => (r, none)
  | some p => ({ r with phones := r.phones.eraseP (fun q => q.value == phone) }, some p)

/-- `Record.edit_phone` (lines 60-68).  After the length guard and the
lookup, line 66 executes `phone.value = new_phone(Phone)`: the right
hand side calls the string `new_phone`, which raises
`TypeError("'str' object is not callable")` before any assignment, so
the found phone is never actually replaced. -/
def Record.edit_phone (r : Record) (old_phone new_phone : String) :
    Except PyErr Record :=
  if new_phone.length ≠ 10 then
    .error (.valueError "Invalid phone number: must be 10 digits.")
  else
    match r.find_phone old_phone with
    | some _ => .error (.typeError "str object is not callable")
    | none => .error (.valueError "Phone number not found")

/-- `Record.edit_birthday` (lines 70-71): validates and replaces the
birthday. -/
def Record.edit_birthday (r : Record) (new_birthday : String) :
    Except PyErr Record :=
  match Birthday.make new_birthday with
  | .ok bv => .ok { r with birthday := some bv }
  | .error e => .error e

/-- `Record.__str__` (lines 73-76). -/
def Record.render (r : Record) : String :=
  let ps := String.intercalate "; " (r.phones.map Phone.value)
  let b := match r.birthday with
    | some s => s
    | none => "No birthday set"
  let n := r.name
  s!"Contact name: {n}, phones: {ps}, birthday: {b}"

/-! ### Calendar arithmetic (`datetime.date`)

`get_upcoming_birthdays` manipulates `datetime.date` values: `.replace`,
`.weekday()`, comparison, `+ timedelta(days)` and subtraction.  A date
is a `(year, month, day)` triple; `toordinal` is the proleptic Gregorian
day count of `datetime.date.toordinal` (0001-01-01 ↦ 1), from which the
weekday (`Monday = 0`) and date differences follow exactly as in Python. -/

structure PlainDate where
  year : Nat
  month : Nat
  day : Nat
  deriving DecidableEq, Repr

/-- Days in the years before year `y` (`datetime`'s `_days_before_year`). -/
def daysBeforeYear (y : Nat) : Nat :=
  365 * (y - 1) + (y - 1) / 4 - (y - 1) / 100 + (y - 1) / 400

/-- Days of year `y` strictly before month `m`: `datetime`'s
`_days_before_month`, the cumulative `_DAYS_BEFORE_MONTH` table plus
the leap day after February. -/
def daysBeforeMonth (y m : Nat) : Nat :=
  (match m with
   | 1 => 0 | 2 => 31 | 3 => 59 | 4 => 90 | 5 => 120 | 6 => 151
   | 7 => 181 | 8 => 212 | 9 => 243 | 10 => 273 | 11 => 304 | 12 => 334
   | _ => 0)
  + (if 2 < m ∧ isLeap y then 1 else 0)

/-- `datetime.date.toordinal`. -/
def toordinal (p : PlainDate) : Nat :=
  daysBeforeYear p.year + daysBeforeMonth p.year p.month + p.day

/-- `datetime.date.weekday()`: Monday is 0.  0001-01-01 (ordinal 1) is
a Monday. -/
def PlainDate.weekday (p : PlainDate) : Nat :=
  (toordinal p + 6) % 7

/-- `datetime.date.__lt__`: lexicographic on (year, month, day). -/
def PlainDate.lt (a b : PlainDate) : Bool :=
  a.year < b.year
    || (a.year == b.year
        && (a.month < b.month || (a.month == b.month && a.day < b.day)))

/-- The date a well-formed `datetime.date` can hold. -/
def PlainDate.valid (p : PlainDate) : Bool :=
  1 ≤ p.year && 1 ≤ p.month && p.month ≤ 12
    && 1 ≤ p.day && p.day ≤ daysInMonth p.year p.month

/-- The calendar successor of a date (`date + timedelta(days=1)`). -/
def PlainDate.next (p : PlainDate) : PlainDate :=
  if p.day < daysInMonth p.year p.month then ⟨p.year, p.month, p.day + 1⟩
  else if p.month < 12 then ⟨p.year, p.month + 1, 1⟩
  else ⟨p.year + 1, 1, 1⟩

/-- `date + timedelta(days=k)` for `k ≥ 0`. -/
def PlainDate.addDays : PlainDate → Nat → PlainDate
  | p, 0 => p
  | p, k + 1 => PlainDate.addDays p.next k

/-- `date.replace(year=y)` (keeps month and day, re-validating the
day against the new year): raises
`ValueError("day is out of range for month")` for 29 February of a
non-leap target year. -/
def replace_year (p : PlainDate) (y : Nat) : Except PyErr PlainDate :=
  if p.day ≤ daysInMonth y p.month then .ok ⟨y, p.month, p.day⟩
  else .error (.valueError "day is out of range for month")

/-- `AddressBook.find_next_weekday` (lines 107-111):
`days_ahead = weekday - start_date.weekday()`, bumped by 7 when not
positive, then added to the date. -/
def find_next_weekday (start_date : PlainDate) (weekday : Nat) : PlainDate :=
  let days_ahead : Int := (weekday : Int) - (start_date.weekday : Int)
  if days_ahead ≤ 0 then start_date.addDays (days_ahead + 7).toNat
  else start_date.addDays days_ahead.toNat

/-- `AddressBook.adjust_for_weekend` (lines 113-116): dates with
weekday index ≥ 4 are pushed to the next Monday. -/
def adjust_for_weekend (birthday : PlainDate) : PlainDate :=
  if birthday.weekday ≥ 4 then find_next_weekday birthday 0
  else birthday

/-- The per-record body of the loop in `AddressBook.get_upcoming_birthdays`
(lines 118-131), for the records processed so far: parses the stored
birthday string, re-anchors it onto `today.year` (onto `today.year + 1`
when the candidate has already passed), weekend-adjusts, and keeps the
record when the adjusted date falls within `days` days of `today`.
`today` (read from the clock in the source) is an explicit argument. -/
def upcomingAux (days : Nat) (today : PlainDate) :
    List Record → Except PyErr (List (String × PlainDate))
  | [] => .ok []
  | r :: rest =>
    match r.birthday with
    | none => upcomingAux days today rest
    | some s =>
      match strptime_dmY s with
      | .error e => .error e
      | .ok (d, m, y) =>
        match replace_year ⟨y, m, d⟩ today.year with
        | .error e => .error e
        | .ok c1 =>
          match (if c1.lt today then replace_year c1 (today.year + 1) else .ok c1) with
          | .error e => .error e
          | .ok c2 =>
            let adj := adjust_for_weekend c2
            match upcomingAux days today rest with
            | .error e => .error e
            | .ok tail =>
              if 0 ≤ (toordinal adj : Int) - (toordinal today : Int)
                  ∧ (toordinal adj : Int) - (toordinal today : Int) ≤ (days : Int) then
                .ok ((r.name, adj) :: tail)
              else .ok tail

/-! ### AddressBook and the dispatcher -/

/-- The `AddressBook` dictionary: an insertion-ordered association list
from name to record (`UserDict` preserves insertion order and unique
keys). -/
abbrev Book := List (String × Record)

/-- `AddressBook.add_record` (lines 84-85): `self.data[name] = record`
overwrites in place when the key exists, else appends. -/
def AddressBook.add_record (book : Book) (r : Record) : Book :=
  if book.any (fun kv => kv.1 == r.name) then
    book.map (fun kv => if kv.1 == r.name then (kv.1, r) else kv)
  else book ++ [(r.name, r)]

/-- `AddressBook.find` (lines 87-88): `self.data.get(name)`. -/
def AddressBook.find (book : Book) (name : String) : Option Record :=
  (book.find? (fun kv => kv.1 == name)).map Prod.snd

/-- `AddressBook.delete` (lines 90-92): pops the key when present. -/
def AddressBook.delete (book : Book) (name : String) : Book :=
  book.eraseP (fun kv => kv.1 == name)

/-- `AddressBook.__str__` (lines 79-82). -/
def AddressBook.render (book : Book) : String :=
  if book.isEmpty then "No contacts found."
  else String.intercalate "\n" (book.map (fun kv => kv.2.render))

/-- `AddressBook.get_upcoming_birthdays` over the book's records in
insertion order. -/
def AddressBook.get_upcoming_birthdays (book : Book) (days : Nat)
    (today : PlainDate) : Except PyErr (List (String × PlainDate)) :=
  upcomingAux days today (book.map Prod.snd)

/-! ### Command parsing and the `ContactApp` dispatcher (lines 255-360)

`ContactApp.run` loops: it parses a line, looks the command keyword up
in `self.commands` and calls the bound handler.  Unlike the module-level
handler functions (lines 147-213), the `ContactApp` methods carry no
`@input_error` decorator, so an exception inside one of them propagates
out of `run`.  `processLine` embeds one iteration of the loop on one
input line: the new book, the messages shown, and whether the session
terminates (`exit`/`close`); an uncaught exception is an `.error`. -/

/-- The whitespace `str.strip()` / `str.split()` act on (the ASCII
subset). -/
def isWS (c : Char) : Bool :=
  c == ' ' || c == '\t' || c == '\n' || c == '\r'

/-- Accumulator pass of `wsTokens`: `acc` holds the current token,
reversed. -/
def wsTokensAux : List Char → List Char → List (List Char)
  | [], acc => if acc.isEmpty then [] else [acc.reverse]
  | c :: rest, acc =>
    if isWS c then
      if acc.isEmpty then wsTokensAux rest []
      else acc.reverse :: wsTokensAux rest []
    else wsTokensAux rest (c :: acc)

/-- `str.split()` with no separator: maximal runs of non-whitespace. -/
def wsTokens (l : List Char) : List (List Char) :=
  wsTokensAux l []

/-- `str.strip()`: drop whitespace from both ends. -/
def stripWS (l : List Char) : List Char :=
  ((l.dropWhile isWS).reverse.dropWhile isWS).reverse

/-- `ContactApp.parse_input` (lines 342-347): split on the first `' '`;
the command is stripped and lower-cased, the remainder (when any) is
tokenised by `split()`. -/
def parse_input (user_input : String) : String × List String :=
  let chars := user_input.data
  let cmd := chars.takeWhile (fun c => c != ' ')
  let rest := chars.dropWhile (fun c => c != ' ')
  let args := match rest with
    | [] => []
    | _ :: tail => (wsTokens tail).map (fun t => String.mk t)
  (String.mk ((stripWS cmd).map Char.toLower), args)

/-- `ContactApp.add_contact` (lines 275-286).  The `name, phone = args`
unpacking raises `ValueError` unless exactly two arguments came in; a
ten-character phone for a new contact goes through `Record.__init__`,
whose `Phone` validation can still raise. -/
def ContactApp.add_contact (book : Book) (args : List String) :
    Except PyErr (Book × List String) :=
  match args with
  | [name, phone] =>
    match AddressBook.find book name with
    | some r =>
      match r.add_phone phone with
      | .error e => .error e
      | .ok (r2, _) => .ok (AddressBook.add_record book r2, ["Phone added."])
    | none =>
      if phone.length = 10 then
        match Record.make name phone none with
        | .error e => .error e
        | .ok r => .ok (AddressBook.add_record book r, ["Contact added."])
      else .ok (book, ["Invalid phone number"])
  | _ => .error (.valueError "not enough values to unpack")

/-- `ContactApp.change_contact` (lines 288-295): edits the first phone
via `edit_phone`; `record.phones[0]` raises `IndexError` on an empty
phone list. -/
def ContactApp.change_contact (book : Book) (args : List String) :
    Except PyErr (Book × List String) :=
  match args with
  | [name, phone] =>
    match AddressBook.find book name with
    | some r =>
      match r.phones with
      | [] => .error .indexError
      | p0 :: _ =>
        match r.edit_phone p0.value phone with
        | .error e => .error e
        | .ok r2 => .ok (AddressBook.add_record book r2, ["Contact updated."])
    | none => .ok (book, ["Contact not found."])
  | _ => .error (.valueError "not enough values to unpack")

/-- `ContactApp.show_phone` (lines 297-303): `args[0]` raises
`IndexError` when no argument was given. -/
def ContactApp.show_phone (book : Book) (args : List String) :
    Except PyErr (Book × List String) :=
  match args with
  | [] => .error .indexError
  | name :: _ =>
    match AddressBook.find book name with
    | some r =>
      match r.phones with
      | [] => .error .indexError
      | p0 :: _ =>
        let v := p0.value
        .ok (book, [s!"Phone number for {name}: {v}"])
    | none => .ok (book, [s!"Contact {name} not found."])

/-- `ContactApp.add_birthday` (lines 308-315). -/
def ContactApp.add_birthday (book : Book) (args : List String) :
    Except PyErr (Book × List String) :=
  match args with
  | [name, birthday] =>
    match AddressBook.find book name with
    | some r =>
      match r.edit_birthday birthday with
      | .error e => .error e
      | .ok r2 =>
        .ok (AddressBook.add_record book r2, [s!"Birthday for {name} added."])
    | none => .ok (book, [s!"Contact {name} not found."])
  | _ => .error (.valueError "not enough values to unpack")

/-- `ContactApp.show_birthday` (lines 317-326). -/
def ContactApp.show_birthday (book : Book) (args : List String) :
    Except PyErr (Book × List String) :=
  match args with
  | [] => .error .indexError
  | name :: _ =>
    match AddressBook.find book name with
    | some r =>
      match r.birthday with
      | some b => .ok (book, [s!"Birthday for {name}: {b}"])
      | none => .ok (book, [s!"Birthday for {name} not added."])
    | none => .ok (book, [s!"Contact {name} not found."])

/-- Zero-padded decimal rendering of width 2, as `str(date)` pads. -/
def pad2 (n : Nat) : String :=
  if n < 10 then "0" ++ toString n else toString n

/-- Zero-padded decimal rendering of width 4. -/
def pad4 (n : Nat) : String :=
  if n < 10 then "000" ++ toString n
  else if n < 100 then "00" ++ toString n
  else if n < 1000 then "0" ++ toString n
  else toString n

/-- `str(datetime.date)`: ISO `YYYY-MM-DD`. -/
def isoDate (p : PlainDate) : String :=
  pad4 p.year ++ "-" ++ pad2 p.month ++ "-" ++ pad2 p.day

/-- `ContactApp.show_birthdays` (lines 328-335), with the clock's value
passed in as `today`. -/
def ContactApp.show_birthdays (book : Book) (today : PlainDate) :
    Except PyErr (Book × List String) :=
  match AddressBook.get_upcoming_birthdays book 7 today with
  | .error e => .error e
  | .ok [] => .ok (book, ["Users not found."])
  | .ok l =>
    .ok (book, l.map (fun u =>
      let n := u.1
      let d := isoDate u.2
      s!"Greeting for {n} for {d}"))

/-- The keys of `self.commands` (lines 259-270). -/
def commandKeys : List String :=
  ["hello", "add", "change", "phone", "all", "add-birthday",
   "show-birthday", "birthdays", "exit", "close"]

/-- One iteration of `ContactApp.run` (lines 349-360) on one input
line: parse, dispatch through `self.commands`, or report
`"Invalid command."`.  The result carries the book afterwards, the
messages shown, and `true` when the loop breaks (`exit`/`close`);
`.error` is an exception escaping `run`. -/
def processLine (today : PlainDate) (book : Book) (line : String) :
    Except PyErr (Book × List String × Bool) :=
  let parsed := parse_input line
  let cmd := parsed.1
  let args := parsed.2
  if cmd = "hello" then .ok (book, ["How can I help you?"], false)
  else if cmd = "add" then
    (ContactApp.add_contact book args).map (fun x => (x.1, x.2, false))
  else if cmd = "change" then
    (ContactApp.change_contact book args).map (fun x => (x.1, x.2, false))
  else if cmd = "phone" then
    (ContactApp.show_phone book args).map (fun x => (x.1, x.2, false))
  else if cmd = "all" then .ok (book, [AddressBook.render book], false)
  else if cmd = "add-birthday" then
    (ContactApp.add_birthday book args).map (fun x => (x.1, x.2, false))
  else if cmd = "show-birthday" then
    (ContactApp.show_birthday book args).map (fun x => (x.1, x.2, false))
  else if cmd = "birthdays" then
    (ContactApp.show_birthdays book today).map (fun x => (x.1, x.2, false))
  else if cmd = "exit" ∨ cmd = "close" then .ok (book, ["Good bye!"], true)
  else .ok (book, ["Invalid command."], false)

/-! ### Calendar lemmas -/

theorem daysInMonth_pos (y m : Nat) (h1 : 1 ≤ m) (h2 : m ≤ 12) :
    1 ≤ daysInMonth y m := by
  interval_cases m <;> simp [daysInMonth]
  split <;> omega

theorem daysBeforeMonth_succ (y m : Nat) (h1 : 1 ≤ m) (h2 : m ≤ 11) :
    daysBeforeMonth y (m + 1) = daysBeforeMonth y m + daysInMonth y m := by
  rcases Bool.eq_false_or_eq_true (isLeap y) with hleap | hleap <;>
    interval_cases m <;> simp [daysBeforeMonth, daysInMonth, hleap]

theorem isLeap_arith (y : Nat) :
    isLeap y = true ↔ (y % 4 = 0 ∧ (y % 100 ≠ 0 ∨ y % 400 = 0)) := by
  simp [isLeap]

set_option maxHeartbeats 4000000 in
theorem toordinal_next (p : PlainDate) (hv : p.valid = true) :
    toordinal p.next = toordinal p + 1 := by
  obtain ⟨y, m, d⟩ := p
  simp only [PlainDate.valid, Bool.and_eq_true, decide_eq_true_eq] at hv
  obtain ⟨⟨⟨⟨hy, hm1⟩, hm2⟩, hd1⟩, hd2⟩ := hv
  simp only [PlainDate.next]
  split
  · simp only [toordinal]
    omega
  · split
    · rename_i hlt hmon
      have hde : d = daysInMonth y m := by omega
      have hrec := daysBeforeMonth_succ y m hm1 (by omega)
      simp only [toordinal]
      omega
    · rename_i hlt hmon
      have hm12 : m = 12 := by omega
      subst hm12
      have h31 : daysInMonth y 12 = 31 := rfl
      have hde : d = 31 := by rw [h31] at hd2 hlt; omega
      subst hde
      rcases Bool.eq_false_or_eq_true (isLeap y) with hleap | hleap
      · have hl := (isLeap_arith y).mp hleap
        have hdbm : daysBeforeMonth y 12 = 335 := by
          simp [daysBeforeMonth, hleap]
        have hdbm1 : daysBeforeMonth (y + 1) 1 = 0 := by
          simp [daysBeforeMonth]
        simp only [toordinal, daysBeforeYear, hdbm, hdbm1]
        omega
      · have hl : ¬(y % 4 = 0 ∧ (y % 100 ≠ 0 ∨ y % 400 = 0)) := by
          rw [← isLeap_arith y, hleap]; simp
        have hdbm : daysBeforeMonth y 12 = 334 := by
          simp [daysBeforeMonth, hleap]
        have hdbm1 : daysBeforeMonth (y + 1) 1 = 0 := by
          simp [daysBeforeMonth]
        simp only [toordinal, daysBeforeYear, hdbm, hdbm1]
        omega

theorem valid_next (p : PlainDate) (hv : p.valid = true) :
    p.next.valid = true := by
  obtain ⟨y, m, d⟩ := p
  simp only [PlainDate.valid, Bool.and_eq_true, decide_eq_true_eq] at hv ⊢
  obtain ⟨⟨⟨⟨hy, hm1⟩, hm2⟩, hd1⟩, hd2⟩ := hv
  simp only [PlainDate.next]
  split
  · simp only [PlainDate.valid, Bool.and_eq_true, decide_eq_true_eq]
    omega
  · split
    · rename_i h1 h2
      simp only [PlainDate.valid, Bool.and_eq_true, decide_eq_true_eq]
      have := daysInMonth_pos y (m + 1) (by omega) (by omega)
      omega
    · simp only [PlainDate.valid, Bool.and_eq_true, decide_eq_true_eq]
      simp [daysInMonth]

theorem toordinal_addDays (p : PlainDate) (hv : p.valid = true) (k : Nat) :
    toordinal (p.addDays k) = toordinal p + k ∧ (p.addDays k).valid = true := by
  induction k generalizing p with
  | zero => exact ⟨rfl, hv⟩
  | succ n ih =>
    have h1 := toordinal_next p hv
    have h2 := valid_next p hv
    obtain ⟨ha, hb⟩ := ih p.next h2
    simp only [PlainDate.addDays]
    exact ⟨by omega, hb⟩

/-! ### The claims -/

/-- Claim C1: the guards of `edit_phone` behave as specified (length
check on `new_phone` first, then presence of `old_phone`), but on the
success path line 66 evaluates `new_phone(Phone)` — a call of the
string `new_phone` — so instead of replacing the found phone's value
the method raises `TypeError`; the record is never updated. -/
theorem claim1_edit_phone_never_replaces :
    Record.edit_phone ⟨"Ann", [⟨"1234567890"⟩], none⟩ "1234567890" "0987654321"
        = .error (.typeError "str object is not callable")
      ∧ Record.edit_phone ⟨"Ann", [⟨"1234567890"⟩], none⟩ "1234567890" "123"
        = .error (.valueError "Invalid phone number: must be 10 digits.")
      ∧ Record.edit_phone ⟨"Ann", [⟨"1234567890"⟩], none⟩ "0000000000" "0987654321"
        = .error (.valueError "Phone number not found") := by
  refine ⟨?_, ?_, ?_⟩ <;> decide

/-- Claim C2: the `ContactApp` handler methods carry no `@input_error`
decorator, so a `ValueError` raised inside one of them (here: unpacking
`name, phone = args` on the line `add Ann`, and `add_phone` validation
on `add Ann 12345678ab` for an existing contact) propagates out of
`ContactApp.run` and terminates the session instead of becoming a
user-facing message. -/
theorem claim2_handler_errors_escape_run :
    processLine ⟨2024, 6, 3⟩ [] "add Ann"
        = .error (.valueError "not enough values to unpack")
      ∧ processLine ⟨2024, 6, 3⟩ [("Ann", ⟨"Ann", [⟨"1234567890"⟩], none⟩)]
          "add Ann 12345678ab"
        = .error (.valueError "Invalid phone number") := by
  constructor <;> decide

/-! ### Lemmas about the dot-splitting of `strptime_dmY` -/

theorem string_data_mk (l : List Char) : (String.mk l).data = l := rfl

/-- Inverse of `dotGroups`: rejoin the groups with dots. -/
def joinDots : List (List Char) → List Char
  | [] => []
  | [g] => g
  | g :: gs => g ++ '.' :: joinDots gs

theorem splitDots_noDot (xs : List Char) (h : '.' ∉ xs) :
    splitDots xs = (xs, []) := by
  induction xs with
  | nil => rfl
  | cons ch rest ih =>
    have hc : ch ≠ '.' := fun hc => h (hc ▸ List.mem_cons_self _ _)
    simp only [splitDots, ih (fun hm => h (List.mem_cons_of_mem _ hm)), hc,
      if_false, reduceCtorEq, ite_false]

theorem splitDots_append (xs ys : List Char) (h : '.' ∉ xs) :
    splitDots (xs ++ '.' :: ys)
      = (xs, (splitDots ys).1 :: (splitDots ys).2) := by
  induction xs with
  | nil => simp [splitDots]
  | cons ch rest ih =>
    have hc : ch ≠ '.' := fun hc => h (hc ▸ List.mem_cons_self _ _)
    simp only [List.cons_append, splitDots, hc, if_false, reduceCtorEq,
      ite_false, List.append_eq]
    rw [ih (fun hm => h (List.mem_cons_of_mem _ hm))]

theorem dotGroups_three (a b c : List Char) (ha : '.' ∉ a) (hb : '.' ∉ b)
    (hc : '.' ∉ c) :
    dotGroups (a ++ '.' :: (b ++ '.' :: c)) = [a, b, c] := by
  unfold dotGroups
  rw [splitDots_append _ _ ha, splitDots_append _ _ hb, splitDots_noDot _ hc]

theorem joinDots_splitDots (l : List Char) :
    joinDots ((splitDots l).1 :: (splitDots l).2) = l := by
  induction l with
  | nil => rfl
  | cons ch rest ih =>
    by_cases hc : ch = '.'
    · subst hc
      simp only [splitDots, if_pos rfl]
      show [] ++ '.' :: joinDots ((splitDots rest).1 :: (splitDots rest).2)
        = '.' :: rest
      rw [ih]
      rfl
    · simp only [splitDots, hc, if_false, reduceCtorEq, ite_false]
      cases hs : (splitDots rest).2 with
      | nil =>
        rw [hs] at ih
        show ch :: (splitDots rest).1 = ch :: rest
        simpa [joinDots] using ih
      | cons g gs =>
        rw [hs] at ih
        show (ch :: (splitDots rest).1) ++ '.' :: joinDots (g :: gs) = ch :: rest
        simp only [joinDots] at ih
        simp [ih]

theorem all_digits_no_dot (l : List Char) (h : l.all Char.isDigit = true) :
    '.' ∉ l := by
  intro hm
  rw [List.all_eq_true] at h
  exact absurd (h _ hm) (by decide)

theorem dayTok_props (a : List Char) (h : dayTok a = true) :
    a.all Char.isDigit = true ∧ (a.length = 1 ∨ a.length = 2)
      ∧ 1 ≤ digitsToNat a ∧ digitsToNat a ≤ 31 := by
  unfold dayTok at h
  simp only [Bool.and_eq_true, Bool.or_eq_true, beq_iff_eq,
    decide_eq_true_eq] at h
  tauto

theorem monthTok_props (b : List Char) (h : monthTok b = true) :
    b.all Char.isDigit = true ∧ (b.length = 1 ∨ b.length = 2)
      ∧ 1 ≤ digitsToNat b ∧ digitsToNat b ≤ 12 := by
  unfold monthTok at h
  simp only [Bool.and_eq_true, Bool.or_eq_true, beq_iff_eq,
    decide_eq_true_eq] at h
  tauto

theorem yearTok_props (c : List Char) (h : yearTok c = true) :
    c.all Char.isDigit = true ∧ c.length = 4 := by
  unfold yearTok at h
  simp only [Bool.and_eq_true, beq_iff_eq, decide_eq_true_eq] at h
  tauto

theorem strptime_build (a b c : List Char)
    (ha : a.all Char.isDigit = true) (hal : a.length = 1 ∨ a.length = 2)
    (ha1 : 1 ≤ digitsToNat a) (ha31 : digitsToNat a ≤ 31)
    (hb : b.all Char.isDigit = true) (hbl : b.length = 1 ∨ b.length = 2)
    (hb1 : 1 ≤ digitsToNat b) (hb12 : digitsToNat b ≤ 12)
    (hc : c.all Char.isDigit = true) (hcl : c.length = 4)
    (hy1 : 1 ≤ digitsToNat c)
    (hdm : digitsToNat a ≤ daysInMonth (digitsToNat c) (digitsToNat b)) :
    strptime_dmY (String.mk (a ++ '.' :: (b ++ '.' :: c)))
      = .ok (digitsToNat a, digitsToNat b, digitsToNat c) := by
  have hda : dayTok a = true := by
    unfold dayTok
    rcases hal with h | h <;> simp [ha, h, ha1, ha31]
  have hmb : monthTok b = true := by
    unfold monthTok
    rcases hbl with h | h <;> simp [hb, h, hb1, hb12]
  have hyc : yearTok c = true := by
    unfold yearTok
    simp [hc, hcl]
  unfold strptime_dmY
  rw [string_data_mk, dotGroups_three a b c (all_digits_no_dot a ha)
    (all_digits_no_dot b hb) (all_digits_no_dot c hc)]
  simp [hda, hmb, hyc, hy1, hdm]

theorem strptime_ok_decomp (s : String) (d m y : Nat)
    (h : strptime_dmY s = .ok (d, m, y)) :
    ∃ a b c : List Char,
      s.data = a ++ '.' :: (b ++ '.' :: c)
      ∧ dayTok a = true ∧ monthTok b = true ∧ yearTok c = true
      ∧ d = digitsToNat a ∧ m = digitsToNat b ∧ y = digitsToNat c
      ∧ 1 ≤ y ∧ d ≤ daysInMonth y m := by
  unfold strptime_dmY at h
  cases hg : dotGroups s.data with
  | nil => rw [hg] at h; exact absurd h (by simp)
  | cons a rest =>
  cases rest with
  | nil => rw [hg] at h; exact absurd h (by simp)
  | cons b rest2 =>
  cases rest2 with
  | nil => rw [hg] at h; exact absurd h (by simp)
  | cons c rest3 =>
  cases rest3 with
  | cons x xs => rw [hg] at h; exact absurd h (by simp)
  | nil =>
  rw [hg] at h
  replace h : (if (dayTok a && monthTok b && yearTok c) = true then
      if 1 ≤ digitsToNat c
          ∧ digitsToNat a ≤ daysInMonth (digitsToNat c) (digitsToNat b) then
        Except.ok (digitsToNat a, digitsToNat b, digitsToNat c)
      else Except.error (PyErr.valueError "day is out of range for month")
    else Except.error (PyErr.valueError "time data does not match format"))
      = Except.ok (d, m, y) := h
  have hj := joinDots_splitDots s.data
  rw [show (splitDots s.data).1 :: (splitDots s.data).2 = dotGroups s.data
    from rfl, hg] at hj
  have hdec : s.data = a ++ '.' :: (b ++ '.' :: c) := by
    rw [← hj]
    simp [joinDots]
  by_cases htok : (dayTok a && monthTok b && yearTok c) = true
  · rw [if_pos htok] at h
    by_cases hin : 1 ≤ digitsToNat c
        ∧ digitsToNat a ≤ daysInMonth (digitsToNat c) (digitsToNat b)
    · rw [if_pos hin] at h
      simp only [Except.ok.injEq, Prod.mk.injEq] at h
      obtain ⟨hd, hm, hy⟩ := h
      simp only [Bool.and_eq_true] at htok
      exact ⟨a, b, c, hdec, htok.1.1, htok.1.2, htok.2, hd.symm, hm.symm,
        hy.symm, hy ▸ hin.1, by rw [← hd, ← hm, ← hy]; exact hin.2⟩
    · rw [if_neg hin] at h
      exact absurd h (by simp)
  · rw [if_neg htok] at h
    exact absurd h (by simp)

/-- Claim C7: `Birthday` validation succeeds exactly on the
day.month.year strings denoting a real calendar date — a 1-2 digit day,
a 1-2 digit month and a 4-digit year separated by dots, with the day
existing in that month and year (29.02 only in leap years), the year at
least 1 — and then recovers the same day, month and year from the
stored string; every string of any other shape fails with
`ValueError("Invalid date format")`. -/
theorem claim7_birthday_validation :
    (∀ a b c : List Char,
        a.all Char.isDigit = true → (a.length = 1 ∨ a.length = 2) →
        1 ≤ digitsToNat a → digitsToNat a ≤ 31 →
        b.all Char.isDigit = true → (b.length = 1 ∨ b.length = 2) →
        1 ≤ digitsToNat b → digitsToNat b ≤ 12 →
        c.all Char.isDigit = true → c.length = 4 → 1 ≤ digitsToNat c →
        digitsToNat a ≤ daysInMonth (digitsToNat c) (digitsToNat b) →
        Birthday.make (String.mk (a ++ '.' :: (b ++ '.' :: c)))
            = .ok (String.mk (a ++ '.' :: (b ++ '.' :: c)))
          ∧ strptime_dmY (String.mk (a ++ '.' :: (b ++ '.' :: c)))
            = .ok (digitsToNat a, digitsToNat b, digitsToNat c))
    ∧ (∀ (s : String) (d m y : Nat), strptime_dmY s = .ok (d, m, y) →
        ∃ a b c : List Char,
          s.data = a ++ '.' :: (b ++ '.' :: c)
          ∧ a.all Char.isDigit = true ∧ (a.length = 1 ∨ a.length = 2)
          ∧ b.all Char.isDigit = true ∧ (b.length = 1 ∨ b.length = 2)
          ∧ c.all Char.isDigit = true ∧ c.length = 4
          ∧ d = digitsToNat a ∧ m = digitsToNat b ∧ y = digitsToNat c
          ∧ 1 ≤ d ∧ d ≤ daysInMonth y m ∧ 1 ≤ m ∧ m ≤ 12 ∧ 1 ≤ y)
    ∧ (∀ s : String,
        (¬ ∃ a b c : List Char,
            s.data = a ++ '.' :: (b ++ '.' :: c)
            ∧ a.all Char.isDigit = true ∧ (a.length = 1 ∨ a.length = 2)
            ∧ 1 ≤ digitsToNat a ∧ digitsToNat a ≤ 31
            ∧ b.all Char.isDigit = true ∧ (b.length = 1 ∨ b.length = 2)
            ∧ 1 ≤ digitsToNat b ∧ digitsToNat b ≤ 12
            ∧ c.all Char.isDigit = true ∧ c.length = 4 ∧ 1 ≤ digitsToNat c
            ∧ digitsToNat a ≤ daysInMonth (digitsToNat c) (digitsToNat b)) →
        Birthday.make s = .error (.valueError "Invalid date format")) := by
  refine ⟨?_, ?_, ?_⟩
  · intro a b c ha hal ha1 ha31 hb hbl hb1 hb12 hc hcl hy1 hdm
    have hst := strptime_build a b c ha hal ha1 ha31 hb hbl hb1 hb12 hc hcl
      hy1 hdm
    exact ⟨by unfold Birthday.make; rw [hst], hst⟩
  · intro s d m y h
    obtain ⟨a, b, c, hdec, hta, htb, htc, hd, hm, hy, h1, h2⟩ :=
      strptime_ok_decomp s d m y h
    obtain ⟨ha, hal, ha1, ha31⟩ := dayTok_props a hta
    obtain ⟨hb, hbl, hb1, hb12⟩ := monthTok_props b htb
    obtain ⟨hc, hcl⟩ := yearTok_props c htc
    subst hd
    subst hm
    subst hy
    exact ⟨a, b, c, hdec, ha, hal, hb, hbl, hc, hcl, rfl, rfl, rfl,
      ha1, h2, hb1, hb12, h1⟩
  · intro s hn
    cases hp : strptime_dmY s with
    | error e =>
      unfold Birthday.make
      rw [hp]
    | ok v =>
      exfalso
      apply hn
      obtain ⟨d, m, y⟩ := v
      obtain ⟨a, b, c, hdec, hta, htb, htc, hd, hm, hy, h1, h2⟩ :=
        strptime_ok_decomp s d m y hp
      obtain ⟨ha, hal, ha1, ha31⟩ := dayTok_props a hta
      obtain ⟨hb, hbl, hb1, hb12⟩ := monthTok_props b htb
      obtain ⟨hc, hcl⟩ := yearTok_props c htc
      subst hd
      subst hm
      subst hy
      exact ⟨a, b, c, hdec, ha, hal, ha1, ha31, hb, hbl, hb1, hb12,
        hc, hcl, h1, h2⟩

/-- Claim C7, witness: "08.06.1990" is accepted, stores the original
string, and recovers day 8, month 6, year 1990. -/
theorem claim7_witness :
    Birthday.make "08.06.1990" = .ok "08.06.1990"
      ∧ strptime_dmY "08.06.1990" = .ok (8, 6, 1990) := by
  have h := claim7_birthday_validation.1 ['0', '8'] ['0', '6']
    ['1', '9', '9', '0'] (by decide) (by decide) (by decide) (by decide)
    (by decide) (by decide) (by decide) (by decide) (by decide) (by decide)
    (by decide) (by decide)
  exact ⟨h.1, by simpa using h.2⟩

/-- The per-record projection that claim C3 describes, written from the
spec's words: re-anchor the stored day/month onto today's year, onto
`today.year + 1` instead when that candidate is strictly before today,
apply the weekend adjustment, and keep the record exactly when
`0 ≤ (adjusted - today).days ≤ days` (both ends inclusive). -/
def upcomingSpec (days : Nat) (today : PlainDate) (r : Record) :
    Option (String × PlainDate) :=
  match r.birthday with
  | none => none
  | some s =>
    match strptime_dmY s with
    | .error _ => none
    | .ok (d, m, _) =>
      let candidate : PlainDate :=
        if PlainDate.lt ⟨today.year, m, d⟩ today then ⟨today.year + 1, m, d⟩
        else ⟨today.year, m, d⟩
      let adj := adjust_for_weekend candidate
      if 0 ≤ (toordinal adj : Int) - (toordinal today : Int)
          ∧ (toordinal adj : Int) - (toordinal today : Int) ≤ (days : Int) then
        some (r.name, adj)
      else none

/-- Claim C3 (amended): provided each stored birthday's day/month
exists in both anchor years (which fails only for a 29.02 birthday, see
the counterexample), `get_upcoming_birthdays` returns exactly the
records selected by the claim's algorithm: year re-anchoring (next year
when the candidate already passed), weekend adjustment, and inclusive
window test `0 ≤ (adjusted - today).days ≤ days`. -/
theorem claim3_upcoming_birthdays_spec :
    ∀ (days : Nat) (today : PlainDate) (rs : List Record),
      (∀ r ∈ rs, ∀ s, r.birthday = some s →
        ∃ d m y, strptime_dmY s = .ok (d, m, y)
          ∧ d ≤ daysInMonth today.year m ∧ d ≤ daysInMonth (today.year + 1) m) →
      upcomingAux days today rs = .ok (rs.filterMap (upcomingSpec days today)) := by
  intro days today rs
  induction rs with
  | nil => intro _; rfl
  | cons r rest ih =>
    intro h
    have hih := ih (fun r2 hm s hs => h r2 (List.mem_cons_of_mem _ hm) s hs)
    rw [List.filterMap_cons]
    cases hb : r.birthday with
    | none =>
      have hs : upcomingSpec days today r = none := by
        simp [upcomingSpec, hb]
      rw [hs]
      simp only [upcomingAux, hb]
      exact hih
    | some s =>
      obtain ⟨d, m, y, hp, h1, h2⟩ := h r (List.mem_cons_self _ _) s hb
      have hc1 : replace_year ⟨y, m, d⟩ today.year = .ok ⟨today.year, m, d⟩ := by
        simp [replace_year, h1]
      simp only [upcomingAux, hb, hp, hc1, hih]
      cases hlt : PlainDate.lt ⟨today.year, m, d⟩ today with
      | true =>
        have hc2 : replace_year ⟨today.year, m, d⟩ (today.year + 1)
            = .ok ⟨today.year + 1, m, d⟩ := by
          simp [replace_year, h2]
        have hs : upcomingSpec days today r
            = if 0 ≤ (toordinal (adjust_for_weekend ⟨today.year + 1, m, d⟩) : Int)
                    - (toordinal today : Int)
                ∧ (toordinal (adjust_for_weekend ⟨today.year + 1, m, d⟩) : Int)
                    - (toordinal today : Int) ≤ (days : Int) then
                some (r.name, adjust_for_weekend ⟨today.year + 1, m, d⟩)
              else none := by
          simp [upcomingSpec, hb, hp, hlt]
        rw [hs]
        simp only [hlt, if_true, hc2]
        split <;> simp
      | false =>
        have hs : upcomingSpec days today r
            = if 0 ≤ (toordinal (adjust_for_weekend ⟨today.year, m, d⟩) : Int)
                    - (toordinal today : Int)
                ∧ (toordinal (adjust_for_weekend ⟨today.year, m, d⟩) : Int)
                    - (toordinal today : Int) ≤ (days : Int) then
                some (r.name, adjust_for_weekend ⟨today.year, m, d⟩)
              else none := by
          simp [upcomingSpec, hb, hp, hlt]
        rw [hs]
        simp only [hlt, if_false, Bool.false_eq_true]
        split <;> simp

/-- Claim C3, witness: today = Monday 2024-06-03, `days = 7`; the
contact with birthday "08.06.1990" re-anchors to Saturday 2024-06-08
and is reported as due on Monday 2024-06-10 (difference 7, inclusive). -/
theorem claim3_witness :
    upcomingAux 7 ⟨2024, 6, 3⟩ [⟨"Ann", [⟨"1234567890"⟩], some "08.06.1990"⟩]
      = .ok [("Ann", ⟨2024, 6, 10⟩)] := by
  rw [claim3_upcoming_birthdays_spec 7 ⟨2024, 6, 3⟩
    [⟨"Ann", [⟨"1234567890"⟩], some "08.06.1990"⟩]
    (by
      intro r hm s hs
      simp only [List.mem_singleton] at hm
      subst hm
      simp only [Option.some.injEq] at hs
      subst hs
      exact ⟨8, 6, 1990, by decide, by decide, by decide⟩)]
  decide

/-- Claim C3, counterexample: a record whose (validly stored) birthday
is 29.02.2020 makes `get_upcoming_birthdays` raise
`ValueError("day is out of range for month")` at the `replace(year=...)`
step when today's year is not a leap year — the call returns no list at
all, so the claimed per-record inclusion criterion does not hold as
stated for every record. -/
theorem claim3_counterexample_feb29 :
    strptime_dmY "29.02.2020" = .ok (29, 2, 2020)
      ∧ upcomingAux 7 ⟨2023, 6, 3⟩ [⟨"Leap", [⟨"1234567890"⟩], some "29.02.2020"⟩]
        = .error (.valueError "day is out of range for month") := by
  constructor <;> decide

/-- Claim C4: `adjust_for_weekend` returns the date unchanged when its
weekday index (Monday = 0) is below 4, and for index 4, 5 or 6
(Friday, Saturday, Sunday) returns the next Monday strictly after it:
a later date of weekday 0 with no Monday strictly in between. -/
theorem claim4_adjust_for_weekend_spec :
    ∀ p : PlainDate, p.valid = true →
      (p.weekday < 4 → adjust_for_weekend p = p)
      ∧ (4 ≤ p.weekday →
          toordinal p < toordinal (adjust_for_weekend p)
          ∧ (adjust_for_weekend p).weekday = 0
          ∧ ∀ q : PlainDate, toordinal p < toordinal q →
              toordinal q < toordinal (adjust_for_weekend p) → q.weekday ≠ 0) := by
  intro p hv
  constructor
  · intro h
    unfold adjust_for_weekend
    rw [if_neg (by omega)]
  · intro h
    have hw7 : p.weekday < 7 := Nat.mod_lt _ (by norm_num)
    unfold adjust_for_weekend
    rw [if_pos h]
    simp only [find_next_weekday]
    have hda : ((0 : Nat) : Int) - (p.weekday : Int) ≤ 0 := by omega
    rw [if_pos hda]
    have hk : (((0 : Nat) : Int) - (p.weekday : Int) + 7).toNat = 7 - p.weekday := by
      omega
    rw [hk]
    have had := toordinal_addDays p hv (7 - p.weekday)
    have hwd : p.weekday = (toordinal p + 6) % 7 := rfl
    refine ⟨by omega, ?_, ?_⟩
    · show (toordinal (p.addDays (7 - p.weekday)) + 6) % 7 = 0
      rw [had.1]
      omega
    · intro q h1 h2
      rw [had.1] at h2
      show (toordinal q + 6) % 7 ≠ 0
      omega

/-- Claim C4, witness: Wednesday 2024-06-05 is kept; Saturday
2024-06-08 moves to a Monday (2024-06-10, see claim C3's witness). -/
theorem claim4_witness :
    adjust_for_weekend ⟨2024, 6, 5⟩ = ⟨2024, 6, 5⟩
      ∧ (adjust_for_weekend ⟨2024, 6, 8⟩).weekday = 0 :=
  ⟨(claim4_adjust_for_weekend_spec ⟨2024, 6, 5⟩ (by decide)).1 (by decide),
   ((claim4_adjust_for_weekend_spec ⟨2024, 6, 8⟩ (by decide)).2 (by decide)).2.1⟩

/-- The invariant of claim C5: at least one phone, every phone a
10-digit string. -/
def recordInvariant (r : Record) : Bool :=
  !r.phones.isEmpty && r.phones.all (fun p => validate_phone p.value)

/-- Claim C5, counterexample: `remove_phone` may remove the only phone,
leaving a record with an empty phone list, so it does not preserve the
claimed invariant. -/
theorem claim5_counterexample_remove_phone :
    recordInvariant ⟨"A", [⟨"1234567890"⟩], none⟩ = true
      ∧ (Record.remove_phone ⟨"A", [⟨"1234567890"⟩], none⟩ "1234567890").1.phones = []
      ∧ recordInvariant
          (Record.remove_phone ⟨"A", [⟨"1234567890"⟩], none⟩ "1234567890").1 = false := by
  refine ⟨?_, ?_, ?_⟩ <;> decide

/-- Claim C5, amended: construction establishes the invariant;
`add_phone`, `edit_phone` and `edit_birthday` preserve it, while
`remove_phone` preserves only the all-phones-valid half (it can empty
the list, see the counterexample).  `edit_phone` never returns
successfully (claim C1), so its preservation is vacuous. -/
theorem claim5_record_ops_preserve_invariant :
    (∀ (name phone : String) (bd : Option String) (r0 : Record),
        Record.make name phone bd = .ok r0 → recordInvariant r0 = true)
    ∧ (∀ r : Record, recordInvariant r = true →
        (∀ (p : String) (r2 : Record) (np : Phone),
            r.add_phone p = .ok (r2, np) → recordInvariant r2 = true)
        ∧ (∀ p : String,
            ((r.remove_phone p).1).phones.all (fun q => validate_phone q.value) = true)
        ∧ (∀ (o n : String) (r2 : Record),
            r.edit_phone o n = .ok r2 → recordInvariant r2 = true)
        ∧ (∀ (b : String) (r2 : Record),
            r.edit_birthday b = .ok r2 → recordInvariant r2 = true)) := by
  constructor
  · intro name phone bd r0 h
    cases hv : validate_phone phone with
    | false => simp [Record.make, Phone.make, hv] at h
    | true =>
      cases bd with
      | none =>
        simp [Record.make, Phone.make, hv] at h
        subst h
        simp [recordInvariant, hv]
      | some b =>
        cases hb : Birthday.make b with
        | error e => simp [Record.make, Phone.make, hv, hb] at h
        | ok bv =>
          simp [Record.make, Phone.make, hv, hb] at h
          subst h
          simp [recordInvariant, hv]
  · intro r hr
    simp only [recordInvariant, Bool.and_eq_true, Bool.not_eq_true'] at hr
    obtain ⟨hne, hall⟩ := hr
    refine ⟨?_, ?_, ?_, ?_⟩
    · intro p r2 np h
      cases hv : validate_phone p with
      | false => simp [Record.add_phone, hv] at h
      | true =>
        simp [Record.add_phone, hv] at h
        obtain ⟨h1, h2⟩ := h
        subst h1
        simp only [recordInvariant, Bool.and_eq_true, Bool.not_eq_true']
        constructor
        · simp
        · rw [List.all_eq_true] at hall ⊢
          intro x hx
          rcases List.mem_append.mp hx with hx | hx
          · exact hall x hx
          · simp only [List.mem_singleton] at hx
            subst hx
            simpa using hv
    · intro p
      unfold Record.remove_phone
      cases hf : r.find_phone p with
      | none => exact hall
      | some q =>
        simp only
        rw [List.all_eq_true] at hall ⊢
        intro x hx
        exact hall x ((r.phones.eraseP_sublist).subset hx)
    · intro o n r2 h
      unfold Record.edit_phone at h
      split at h
      · simp at h
      · cases hf : r.find_phone o <;> rw [hf] at h <;> simp at h
    · intro b r2 h
      unfold Record.edit_birthday at h
      cases hb : Birthday.make b <;> rw [hb] at h <;> simp at h
      subst h
      simp only [recordInvariant, Bool.and_eq_true, Bool.not_eq_true']
      exact ⟨hne, hall⟩

/-- Claim C6: `validate_phone` accepts exactly the length-10 strings of
decimal digits. -/
theorem claim6_validate_phone_characterisation :
    ∀ s : String, validate_phone s = true ↔
      (s.length = 10 ∧ ∀ c ∈ s.data, '0' ≤ c ∧ c ≤ '9') := by
  intro s
  simp only [validate_phone, Bool.and_eq_true, beq_iff_eq, List.all_eq_true]
  constructor
  · rintro ⟨h1, h2⟩
    refine ⟨h1, fun c hc => ?_⟩
    have := h2 c hc
    simp only [Char.isDigit, Bool.and_eq_true, decide_eq_true_eq] at this
    exact ⟨this.1, this.2⟩
  · rintro ⟨h1, h2⟩
    refine ⟨h1, fun c hc => ?_⟩
    have := h2 c hc
    simp only [Char.isDigit, Bool.and_eq_true, decide_eq_true_eq]
    exact ⟨this.1, this.2⟩

/-- Claim C6, witness: a concrete accepted phone via the
characterisation. -/
theorem claim6_witness : validate_phone "1234567890" = true :=
  (claim6_validate_phone_characterisation "1234567890").mpr ⟨by decide, by decide⟩

/-- Claim C8: dispatching `add Ann 1234567890` twice against an empty
book: first "Contact added." with one stored phone, then
"Phone added." with two. -/
theorem claim8_add_ann_twice :
    processLine ⟨2024, 6, 3⟩ [] "add Ann 1234567890"
        = .ok ([("Ann", ⟨"Ann", [⟨"1234567890"⟩], none⟩)], ["Contact added."], false)
      ∧ AddressBook.find [("Ann", ⟨"Ann", [⟨"1234567890"⟩], none⟩)] "Ann"
        = some ⟨"Ann", [⟨"1234567890"⟩], none⟩
      ∧ processLine ⟨2024, 6, 3⟩ [("Ann", ⟨"Ann", [⟨"1234567890"⟩], none⟩)]
          "add Ann 1234567890"
        = .ok ([("Ann", ⟨"Ann", [⟨"1234567890"⟩, ⟨"1234567890"⟩], none⟩)],
            ["Phone added."], false)
      ∧ (⟨"Ann", [⟨"1234567890"⟩, ⟨"1234567890"⟩], none⟩ : Record).phones.length = 2 := by
  refine ⟨?_, ?_, ?_, ?_⟩ <;> decide

/-- Claim C9: a line whose (trimmed, lower-cased) command keyword is
not in the dispatch table produces exactly the message
"Invalid command.", leaves the book untouched and does not terminate
the session. -/
theorem claim9_unknown_command_frame :
    ∀ (today : PlainDate) (book : Book) (line : String),
      (parse_input line).1 ∉ commandKeys →
      processLine today book line = .ok (book, ["Invalid command."], false) := by
  intro today book line h
  simp only [commandKeys, List.mem_cons, List.not_mem_nil, or_false, not_or] at h
  obtain ⟨h1, h2, h3, h4, h5, h6, h7, h8, h9, h10⟩ := h
  simp [processLine, h1, h2, h3, h4, h5, h6, h7, h8, h9, h10]

/-- Claim C9, witness: `frobnicate` against a one-record book. -/
theorem claim9_witness :
    processLine ⟨2024, 6, 3⟩ [("Ann", ⟨"Ann", [⟨"1234567890"⟩], none⟩)] "frobnicate"
      = .ok ([("Ann", ⟨"Ann", [⟨"1234567890"⟩], none⟩)],
          ["Invalid command."], false) :=
  claim9_unknown_command_frame ⟨2024, 6, 3⟩
    [("Ann", ⟨"Ann", [⟨"1234567890"⟩], none⟩)] "frobnicate" (by decide)

/-- Claim C10: `add_phone` validates before mutating: an invalid phone
string raises `ValueError` with the record untouched (the embedding
returns no record on the error path — line 45 raises before any
append), and a valid one appends exactly one phone at the end, keeping
name, birthday and the existing phones. -/
theorem claim10_add_phone_atomic :
    ∀ (r : Record) (p : String),
      (validate_phone p = false →
        r.add_phone p = .error (.valueError "Invalid phone number"))
      ∧ (validate_phone p = true →
          ∃ (r2 : Record) (np : Phone), r.add_phone p = .ok (r2, np)
            ∧ r2.name = r.name ∧ r2.birthday = r.birthday
            ∧ r2.phones = r.phones ++ [⟨p⟩] ∧ np = ⟨p⟩) := by
  intro r p
  constructor
  · intro h
    simp [Record.add_phone, h]
  · intro h
    exact ⟨{ r with phones := r.phones ++ [⟨p⟩] }, ⟨p⟩,
      by simp [Record.add_phone, h], rfl, rfl, rfl, rfl⟩

example : strptime_dmY "08.06.1990" = .ok (8, 6, 1990) := by decide
example : strptime_dmY "8.6.1990" = .ok (8, 6, 1990) := by decide
example : strptime_dmY "29.02.2023" =
    .error (.valueError "day is out of range for month") := by decide
example : strptime_dmY "29.02.2024" = .ok (29, 2, 2024) := by decide
example : strptime_dmY "08.06.90" =
    .error (.valueError "time data does not match format") := by decide
example : validate_phone "1234567890" = true := by decide
example : validate_phone "123456789" = false := by decide
example : validate_phone "12345678a0" = false := by decide
